import Mathlib

/-!
Verification of the `gojenkins` client library (`jenkins.go`) against its
natural-language specification.  The Go source is shallowly embedded: each
Go function becomes a Lean definition over explicit request/response values,
with the network modelled as an oracle from requests to responses and the
observable effects of a call (requests issued, body-close calls, panics)
collected in the result.
-/

namespace GoJenkins

/-! ## Go standard-library primitives used by jenkins.go -/

/-- Split a character list at every occurrence of the separator character;
there is always at least one (possibly empty) field.  Defined by structural
recursion so that it reduces definitionally. -/
def splitOnChar (sep : Char) : List Char → List (List Char)
  | [] => [[]]
  | c :: cs =>
    match splitOnChar sep cs with
    | [] => if c = sep then [[], []] else [[c]]
    | g :: gs => if c = sep then [] :: g :: gs else (c :: g) :: gs

/-- Go `strings.Split(s, sep)` for a single-character separator — the only
form `jenkins.go` uses (it splits on the slash).  As in Go, splitting the
empty string yields a single empty field. -/
def stringsSplit (s : String) (sep : Char) : List String :=
  (splitOnChar sep s.data).map String.mk

/-- Whether every character of the list is a decimal digit. -/
def allDigits : List Char → Bool
  | [] => true
  | c :: cs => c.isDigit && allDigits cs

/-- The natural number denoted by a list of decimal digits. -/
def digitsToNat (l : List Char) : Nat :=
  l.foldl (fun n c => 10 * n + (c.toNat - 48)) 0

/-- Go `strconv.Atoi`: an optional `+` or `-` sign followed by at least one
decimal digit; every other input is an error.  (Overflow of 64-bit ints is
not modelled; no caller in this repository comes near it.) -/
def atoi (s : String) : Except String Int :=
  let core := fun (sign : Int) (digits : List Char) =>
    if digits.isEmpty ∨ ¬ allDigits digits then
      Except.error ("strconv.Atoi: parsing " ++ s ++ ": invalid syntax")
    else
      Except.ok (sign * Int.ofNat (digitsToNat digits))
  match s.data with
  | '-' :: rest => core (-1) rest
  | '+' :: rest => core 1 rest
  | l => core 1 l

/-- The upper-case hexadecimal digit for `n < 16`, as Go's URL escaper
prints it. -/
def hexDigit (n : Nat) : Char :=
  if n < 10 then Char.ofNat (48 + n) else Char.ofNat (55 + n)

/-- Go `url.QueryEscape` on the ASCII range: unreserved characters
(letters, digits, `-` `_` `.` `~`) are kept, a space becomes `+`, and any
other character becomes a percent-escaped upper-case hex byte.  (Multi-byte
runes would be escaped bytewise in Go; no claim depends on them.) -/
def queryEscape (s : String) : String :=
  s.data.foldl
    (fun acc c =>
      if c.isAlphanum ∨ c = '-' ∨ c = '_' ∨ c = '.' ∨ c = '~' then acc.push c
      else if c = ' ' then acc.push '+'
      else (acc.push '%').push (hexDigit (c.toNat / 16 % 16)) |>.push (hexDigit (c.toNat % 16)))
    ""

/-- Go `url.Values`: a map from parameter names to lists of values,
modelled as an association list.  A Go `nil` map is represented at use
sites as `Option Params` with `none` for `nil`. -/
def Params : Type := List (String × List String)

instance : DecidableEq Params := by
  unfold Params; infer_instance

/-- Insert one key/value group into a key-sorted association list. -/
def insertSortedByKey (p : String × List String) :
    List (String × List String) → List (String × List String)
  | [] => [p]
  | q :: qs => if p.1 ≤ q.1 then p :: q :: qs else q :: insertSortedByKey p qs

/-- Sort an association list by key, as Go's `url.Values.Encode` sorts the
map keys before emitting them. -/
def sortByKey (ps : Params) : Params :=
  List.foldr insertSortedByKey [] ps

/-- Go `url.Values.Encode`: keys in sorted order, each value of a key
emitted as `key=value` with both sides query-escaped, pairs joined by `&`.
A key with an empty value list contributes nothing. -/
def valuesEncode (ps : Params) : String :=
  String.intercalate "&"
    ((sortByKey ps).flatMap
      (fun kv => kv.2.map (fun v => queryEscape kv.1 ++ "=" ++ queryEscape v)))

/-- Go `fmt` output for a `%s` verb applied to a value of type `int`: the
verb does not match the type, so fmt prints the value wrapped in a
bad-verb marker, yielding the text percent-bang-s-paren int=N paren. -/
def sprintfSInt (n : Int) : String :=
  "%!s(int=" ++ toString n ++ ")"

/-! ## Data model

The entity structs (`Item`, `Job`, `Build`, `Artifact`, `ListView`,
`MavenJobItem`) are declared in files of this repository that are not part
of `jenkins.go`; they are modelled from the spec, each reduced to the
fields `jenkins.go` actually reads. -/

/-- Modelled from the spec: the `Item` (queue item) struct is declared
outside the provided source file; the spec describes a queue item as
"identified by a queue item number". -/
structure Item where
  number : Int
deriving DecidableEq, Repr

/-- Modelled from the spec: the `Job` struct is declared outside the
provided source file; `jenkins.go` reads only its `Name` field. -/
structure Job where
  name : String
deriving DecidableEq, Repr

/-- Modelled from the spec: the `Build` struct is declared outside the
provided source file; `jenkins.go` reads only its `Url` field. -/
structure Build where
  url : String
deriving DecidableEq, Repr

/-- Modelled from the spec: the `Artifact` struct is declared outside the
provided source file; `jenkins.go` reads only its `RelativePath` field. -/
structure Artifact where
  relativePath : String
deriving DecidableEq, Repr

instance : DecidableEq (Except String String) := fun a b =>
  match a, b with
  | Except.ok x, Except.ok y =>
    if h : x = y then isTrue (congrArg _ h) else isFalse (fun hh => h (Except.ok.inj hh))
  | Except.ok _, Except.error _ => isFalse (fun hh => Except.noConfusion hh)
  | Except.error _, Except.ok _ => isFalse (fun hh => Except.noConfusion hh)
  | Except.error x, Except.error y =>
    if h : x = y then isTrue (congrArg _ h) else isFalse (fun hh => h (Except.error.inj hh))

/-- Modelled from the spec: `MavenJobItem` is an XML job-configuration
document declared outside the provided source file.  `jenkins.go` only
ever passes it to `xml.Marshal`, so the document is modelled by its
serialization behaviour: the outcome `xml.Marshal` produces for it. -/
structure MavenJobItem where
  xmlEncoding : Except String String
deriving DecidableEq, Repr

/-- Modelled from the spec: `ListView` is an XML view document declared
outside the provided source file; `jenkins.go` reads its `Name` field and
passes the document to `xml.Marshal`, modelled as for `MavenJobItem`. -/
structure ListView where
  name : String
  xmlEncoding : Except String String
deriving DecidableEq, Repr

/-- Go `xml.Marshal` on a job-configuration document: the encoded bytes and
a nil error on success, or nil bytes (here the empty string) and the error
on failure. -/
def xmlMarshalMaven (m : MavenJobItem) : String × Option String :=
  match m.xmlEncoding with
  | Except.ok s => (s, none)
  | Except.error e => ("", some e)

/-- Go `xml.Marshal` on a view document, as for `xmlMarshalMaven`. -/
def xmlMarshalView (v : ListView) : String × Option String :=
  match v.xmlEncoding with
  | Except.ok s => (s, none)
  | Except.error e => ("", some e)

/-- A Go `interface` value as passed for the `body interface` parameter of
the parse helpers.  `nilInterface` is the untyped nil interface (the only
value for which the Go comparison `body == nil` is true); `itemPtr` is a
value of dynamic type pointer-to-`Item` (possibly a typed nil pointer,
which compares unequal to nil as an interface value); `otherPtr` stands
for any other decode target (pointer to `Job`, `Queue`, a wrapper struct,
and so on). -/
inductive GoInterface
  | nilInterface
  | itemPtr (p : Option Item)
  | otherPtr
deriving DecidableEq, Repr

/-! ## HTTP model -/

/-- An outbound HTTP request as `jenkins.go` constructs it: method, URL,
payload (empty when the Go body reader is nil), the optional
`Content-Type` header, and the basic-auth credentials set on it (if any). -/
structure Request where
  method : String
  url : String
  payload : String
  contentType : Option String
  basicAuth : Option (String × String)
deriving DecidableEq, Repr

/-- An HTTP response as `jenkins.go` observes it: the status code, the
`Location` header (empty string when the header is absent, as Go's
`Header.Get` reports it), and the body bytes. -/
structure Response where
  statusCode : Int
  location : String
  body : String
deriving DecidableEq, Repr

/-- The network, modelled as an oracle: each request either fails at the
transport level (with an error message) or yields a response. -/
def World : Type := Request → Except String Response

/-- The client: credentials and base URL (`Auth` and `Jenkins` structs of
`jenkins.go`, lines 17-25). -/
structure Auth where
  username : String
  apiToken : String
deriving DecidableEq, Repr

/-- The `Jenkins` struct (lines 22-25): credentials and base URL. -/
structure Jenkins where
  auth : Auth
  baseUrl : String
deriving DecidableEq, Repr

/-- `NewJenkins` (lines 27-32). -/
def NewJenkins (auth : Auth) (baseUrl : String) : Jenkins :=
  { auth := auth, baseUrl := baseUrl }

/-- The Go `error` value a call returns, kept symbolic where it is produced
by a library decoder:

* `noError` — the call returned a nil error;
* `jsonUnmarshal data` — the call returned the result of
  `json.Unmarshal(data, target)` (nil exactly when `data` parses into the
  target; `json.Unmarshal` of empty input always fails);
* `xmlUnmarshal data` — likewise for `xml.Unmarshal`;
* `statusError msg` — the non-200 error built by `postXml`;
* `transportError msg` — an error from the HTTP client itself;
* `fromSecondary n inner` — the error of the nested `GetQueueItem n` call
  made by `parseResponse`'s redirect branch;
* `fuelExhausted` — the recursion-depth bound of the embedding was hit
  (never reached from the fuel the theorems use). -/
inductive RetErr
  | noError
  | jsonUnmarshal (data : String)
  | xmlUnmarshal (data : String)
  | statusError (msg : String)
  | transportError (msg : String)
  | fromSecondary (itemNo : Int) (inner : RetErr)
  | fuelExhausted
deriving DecidableEq, Repr

/-- How a call ended: with a returned Go error value, or by panicking (Go
runtime panics propagate; deferred closes still run during unwinding). -/
inductive Outcome
  | ret (err : RetErr)
  | panicked (msg : String)
deriving DecidableEq, Repr

/-- The observable result of running an embedded call:

* `outcome` — the returned error value, or a panic;
* `reqs` — every HTTP request issued during the call, in order, as
  decorated by `sendRequest`;
* `closes` — one entry per HTTP response acquired during the call, in
  acquisition order, counting the `Body.Close` calls made on it;
* `client` — the client state when the call returns; no method of
  `jenkins.go` assigns to the receiver's fields, so every definition
  returns the client it was given. -/
structure Res where
  outcome : Outcome
  reqs : List Request
  closes : List Nat
  client : Jenkins
deriving DecidableEq, Repr

/-! ## The dispatch layer of jenkins.go

Each definition carries the line numbers of the Go function it embeds.
The recursion `parseResponse` → `locationResolve` → `GetQueueItem` →
`get` → `parseResponse` is bounded by an explicit fuel argument; every
theorem is stated at (or for all) fuel values large enough that the bound
is never hit. -/

/-- The result returned when the recursion-depth bound of the embedding is
hit; unreachable from the fuel values the theorems use. -/
def fuelRes (j : Jenkins) : Res :=
  { outcome := Outcome.ret RetErr.fuelExhausted, reqs := [], closes := [], client := j }

/-- `buildUrl` (lines 34-44): base URL plus path plus the fixed `/api/json`
suffix; when the params map is non-nil and encodes to a non-empty query
string, append `?` and the query string. -/
def Jenkins.buildUrl (j : Jenkins) (path : String) (params : Option Params) : String :=
  let requestUrl := j.baseUrl ++ path ++ "/api/json"
  match params with
  | none => requestUrl
  | some ps =>
    let queryString := valuesEncode ps
    if queryString ≠ "" then requestUrl ++ "?" ++ queryString else requestUrl

/-- The basic-auth decoration `sendRequest` applies to the caller's
request (line 47, `req.SetBasicAuth`; Go mutates the request in place, so
the request the caller issued is the decorated one). -/
def Jenkins.authedReq (j : Jenkins) (req : Request) : Request :=
  { req with basicAuth := some (j.auth.username, j.auth.apiToken) }

/-- `sendRequest` (lines 46-49): set basic auth from the client's
credentials, then perform the request through the default HTTP client
(the `world` oracle). -/
def Jenkins.sendRequest (j : Jenkins) (world : World) (req : Request) :
    Except String Response :=
  world (j.authedReq req)

/-- `parseXmlResponse` (lines 51-64): close the body (deferred; the single
entry of `closes`); a nil target discards the body without reading it;
otherwise read the body and return the result of `xml.Unmarshal` on it.
(Reading an in-memory body cannot fail, so the `ReadAll` error return is
vacuous here.) -/
def Jenkins.parseXmlResponse (j : Jenkins) (resp : Response) (body : GoInterface) : Res :=
  if body = GoInterface.nilInterface then
    { outcome := Outcome.ret RetErr.noError, reqs := [], closes := [1], client := j }
  else
    { outcome := Outcome.ret (RetErr.xmlUnmarshal resp.body), reqs := [],
      closes := [1], client := j }

mutual

/-- `parseResponse` (lines 66-91): close the body (deferred; recorded as
the first entry of `closes`, and performed even when a panic unwinds
through this frame).  When the Go comparison `body == nil` holds — which
for an interface value means both its dynamic type and value are nil —
run the type switch of line 72: its `*Item` case requires the dynamic
type to be pointer-to-`Item`, which a nil interface value never has, so
the case arm (embedded as `locationResolve`) is unreachable; the switch
falls through and nil is returned.  When `body == nil` fails (every
actual caller passes the non-nil address of a target), read the body and
return the result of `json.Unmarshal` on it. -/
def Jenkins.parseResponse (j : Jenkins) (world : World) :
    Nat → Response → GoInterface → Res
  | 0, _, _ => fuelRes j
  | fuel + 1, resp, body =>
    if body = GoInterface.nilInterface then
      match body with
      | GoInterface.itemPtr _ =>
        let inner := j.locationResolve world fuel resp
        { outcome := inner.outcome, reqs := inner.reqs,
          closes := [1] ++ inner.closes, client := inner.client }
      | _ =>
        { outcome := Outcome.ret RetErr.noError, reqs := [], closes := [1], client := j }
    else
      { outcome := Outcome.ret (RetErr.jsonUnmarshal resp.body), reqs := [],
        closes := [1], client := j }

/-- The Location-header block of `parseResponse` (lines 74-80): read the
`Location` header; when it is non-empty, take slash-separated segment 5 of
the header value (Go panics with an index-out-of-range runtime error when
the split has fewer than 6 fields), convert that segment with
`strconv.Atoi` DISCARDING the error through the blank identifier (so a
non-numeric segment silently yields item number 0), rebind the local
`body` and `err` to the result of `GetQueueItem` (the caller's decode
target is not written through), and return.  An empty header falls
through to the plain `return` of a nil error. -/
def Jenkins.locationResolve (j : Jenkins) (world : World) : Nat → Response → Res
  | 0, _ => fuelRes j
  | fuel + 1, resp =>
    let loc := resp.location
    if loc ≠ "" then
      let parts := stringsSplit loc '/'
      match parts.get? 5 with
      | none =>
        { outcome := Outcome.panicked
            ("runtime error: index out of range [5] with length " ++ toString parts.length),
          reqs := [], closes := [], client := j }
      | some seg =>
        let itemNo : Int := match atoi seg with | Except.ok n => n | Except.error _ => 0
        let inner := j.GetQueueItem world fuel itemNo
        { outcome := inner.outcome, reqs := inner.reqs,
          closes := inner.closes, client := inner.client }
    else
      { outcome := Outcome.ret RetErr.noError, reqs := [], closes := [], client := j }

/-- `GetQueueItem` (lines 247-250): GET the queue-item resource into the
address of a zero `Item` (a non-nil pointer target).  The path is built
with `fmt.Sprintf` using a `%s` verb on the int argument, so the rendered
segment is the fmt bad-verb marker text, not the decimal number. -/
def Jenkins.GetQueueItem (j : Jenkins) (world : World) : Nat → Int → Res
  | 0, _ => fuelRes j
  | fuel + 1, itemNo =>
    j.get world fuel ("/queue/item/" ++ sprintfSInt itemNo) none
      (GoInterface.itemPtr (some { number := 0 }))

/-- `get` (lines 93-105): build the JSON-API URL, issue a GET (decorated
with basic auth by `sendRequest`), and parse the response as JSON.
(`http.NewRequest` fails only on malformed methods or URLs and is not
modelled.) -/
def Jenkins.get (j : Jenkins) (world : World) :
    Nat → String → Option Params → GoInterface → Res
  | 0, _, _, _ => fuelRes j
  | fuel + 1, path, params, body =>
    let req : Request :=
      { method := "GET", url := j.buildUrl path params, payload := "",
        contentType := none, basicAuth := none }
    match j.sendRequest world req with
    | Except.error msg =>
      { outcome := Outcome.ret (RetErr.transportError msg), reqs := [j.authedReq req],
        closes := [], client := j }
    | Except.ok resp =>
      let p := j.parseResponse world fuel resp body
      { outcome := p.outcome, reqs := [j.authedReq req] ++ p.reqs,
        closes := p.closes, client := p.client }

end

/-- `getXml` (lines 107-119): note that it builds its URL with `buildUrl`,
so the `/api/json` suffix is appended even though the resource is an XML
configuration document; then GET and parse the response as XML.  No
status-code check is performed on this path. -/
def Jenkins.getXml (j : Jenkins) (world : World) (path : String) (params : Option Params)
    (body : GoInterface) : Res :=
  let req : Request :=
    { method := "GET", url := j.buildUrl path params, payload := "",
      contentType := none, basicAuth := none }
  match j.sendRequest world req with
  | Except.error msg =>
    { outcome := Outcome.ret (RetErr.transportError msg), reqs := [j.authedReq req],
      closes := [], client := j }
  | Except.ok resp =>
    let p := j.parseXmlResponse resp body
    { outcome := p.outcome, reqs := [j.authedReq req] ++ p.reqs,
      closes := p.closes, client := p.client }

/-- `post` (lines 121-134): as `get`, with method POST and no request
payload (the Go body reader is nil). -/
def Jenkins.post (j : Jenkins) (world : World) (fuel : Nat) (path : String)
    (params : Option Params) (body : GoInterface) : Res :=
  let req : Request :=
    { method := "POST", url := j.buildUrl path params, payload := "",
      contentType := none, basicAuth := none }
  match j.sendRequest world req with
  | Except.error msg =>
    { outcome := Outcome.ret (RetErr.transportError msg), reqs := [j.authedReq req],
      closes := [], client := j }
  | Except.ok resp =>
    let p := j.parseResponse world fuel resp body
    { outcome := p.outcome, reqs := [j.authedReq req] ++ p.reqs,
      closes := p.closes, client := p.client }

/-- The error message `postXml` formats for a status code other than 200
(Go line 155). -/
def postXmlStatusMessage (code : Int) : String :=
  "error: HTTP POST returned status code returned: " ++ toString code

/-- `postXml` (lines 135-159): the URL is base plus path VERBATIM — no
`/api/json` suffix — plus the encoded query when non-empty; POST the XML
payload with a `Content-Type: application/xml` header; a status code other
than 200 (including 2xx codes other than 200) returns a formatted error
WITHOUT closing the response body (the deferred close lives inside
`parseXmlResponse`, which is never reached on that path, so that
response's close count is 0); otherwise parse the response as XML. -/
def Jenkins.postXml (j : Jenkins) (world : World) (path : String) (params : Option Params)
    (xmlBody : String) (body : GoInterface) : Res :=
  let base := j.baseUrl ++ path
  let requestUrl :=
    match params with
    | none => base
    | some ps =>
      let queryString := valuesEncode ps
      if queryString ≠ "" then base ++ "?" ++ queryString else base
  let req : Request :=
    { method := "POST", url := requestUrl, payload := xmlBody,
      contentType := some "application/xml", basicAuth := none }
  match j.sendRequest world req with
  | Except.error msg =>
    { outcome := Outcome.ret (RetErr.transportError msg), reqs := [j.authedReq req],
      closes := [], client := j }
  | Except.ok resp =>
    if resp.statusCode ≠ 200 then
      { outcome := Outcome.ret (RetErr.statusError (postXmlStatusMessage resp.statusCode)),
        reqs := [j.authedReq req], closes := [0], client := j }
    else
      let p := j.parseXmlResponse resp body
      { outcome := p.outcome, reqs := [j.authedReq req] ++ p.reqs,
        closes := p.closes, client := p.client }

/-! ## Resource operations (jenkins.go lines 161-267) -/

/-- `GetJobs` (lines 162-168): GET the root resource into the address of a
wrapper struct with a jobs field (a non-nil pointer target). -/
def Jenkins.GetJobs (j : Jenkins) (world : World) (fuel : Nat) : Res :=
  j.get world fuel "" none GoInterface.otherPtr

/-- `GetJob` (lines 171-174). -/
def Jenkins.GetJob (j : Jenkins) (world : World) (fuel : Nat) (name : String) : Res :=
  j.get world fuel ("/job/" ++ name) none GoInterface.otherPtr

/-- `GetJobConfig` (lines 177-180): fetch the job-configuration document
through `getXml` (whose URL therefore comes from `buildUrl`). -/
def Jenkins.GetJobConfig (j : Jenkins) (world : World) (name : String) : Res :=
  j.getXml world ("/job/" ++ name ++ "/config.xml") none GoInterface.otherPtr

/-- `GetBuild` (lines 183-186). -/
def Jenkins.GetBuild (j : Jenkins) (world : World) (fuel : Nat) (job : Job) (number : Int) : Res :=
  j.get world fuel ("/job/" ++ job.name ++ "/" ++ toString number) none GoInterface.otherPtr

/-- `CreateJob` (lines 189-195): marshal the job document, DISCARDING the
marshal error through the blank identifier, and POST the resulting bytes
(nil, i.e. empty, when marshalling failed) to `/createItem` with the job
name as a query parameter and a nil decode target. -/
def Jenkins.CreateJob (j : Jenkins) (world : World) (mavenJobItem : MavenJobItem)
    (jobName : String) : Res :=
  let mavenJobItemXml := (xmlMarshalMaven mavenJobItem).1
  let params : Params := [("name", [jobName])]
  j.postXml world "/createItem" (some params) mavenJobItemXml GoInterface.nilInterface

/-- `AddJobToView` (lines 198-201): POST with the job name as a query
parameter and a nil decode target. -/
def Jenkins.AddJobToView (j : Jenkins) (world : World) (fuel : Nat) (viewName : String)
    (job : Job) : Res :=
  let params : Params := [("name", [job.name])]
  j.post world fuel ("/view/" ++ viewName ++ "/addJobToView") (some params)
    GoInterface.nilInterface

/-- `CreateView` (lines 204-210): as `CreateJob`, for a view document, to
`/createView`. -/
def Jenkins.CreateView (j : Jenkins) (world : World) (listView : ListView) : Res :=
  let xmlListView := (xmlMarshalView listView).1
  let params : Params := [("name", [listView.name])]
  j.postXml world "/createView" (some params) xmlListView GoInterface.nilInterface

/-- `Build` (lines 214-221): a nil params map POSTs to the plain build
path, any non-nil params map (even an empty one) POSTs to
`buildWithParameters`; both pass `params` through unchanged and decode
into the address of the zero `Item` named return (a non-nil pointer). -/
def Jenkins.Build (j : Jenkins) (world : World) (fuel : Nat) (job : Job)
    (params : Option Params) : Res :=
  if params = none then
    j.post world fuel ("/job/" ++ job.name ++ "/build") params
      (GoInterface.itemPtr (some { number := 0 }))
  else
    j.post world fuel ("/job/" ++ job.name ++ "/buildWithParameters") params
      (GoInterface.itemPtr (some { number := 0 }))

/-- `GetBuildConsoleOutput` (lines 224-238): GET the `consoleText`
sub-resource of the build's own URL and return the raw body bytes; the
response body is closed by a defer before `ReadAll` returns. -/
def Jenkins.GetBuildConsoleOutput (j : Jenkins) (world : World) (build : GoJenkins.Build) : Res :=
  let req : Request :=
    { method := "GET", url := build.url ++ "/consoleText", payload := "",
      contentType := none, basicAuth := none }
  match j.sendRequest world req with
  | Except.error msg =>
    { outcome := Outcome.ret (RetErr.transportError msg), reqs := [j.authedReq req],
      closes := [], client := j }
  | Except.ok _ =>
    { outcome := Outcome.ret RetErr.noError, reqs := [j.authedReq req],
      closes := [1], client := j }

/-- `GetQueue` (lines 241-244). -/
def Jenkins.GetQueue (j : Jenkins) (world : World) (fuel : Nat) : Res :=
  j.get world fuel "/queue" none GoInterface.otherPtr

/-- `GetArtifact` (lines 253-267): GET the artifact sub-resource of the
build's own URL and return the raw body bytes, as for the console
output. -/
def Jenkins.GetArtifact (j : Jenkins) (world : World) (build : GoJenkins.Build)
    (artifact : Artifact) : Res :=
  let req : Request :=
    { method := "GET", url := build.url ++ "/artifact/" ++ artifact.relativePath,
      payload := "", contentType := none, basicAuth := none }
  match j.sendRequest world req with
  | Except.error msg =>
    { outcome := Outcome.ret (RetErr.transportError msg), reqs := [j.authedReq req],
      closes := [], client := j }
  | Except.ok _ =>
    { outcome := Outcome.ret RetErr.noError, reqs := [j.authedReq req],
      closes := [1], client := j }

/-- One constructor per exported operation of `jenkins.go`, so that
properties of "every operation" can be stated as a single quantified
theorem. -/
inductive Op
  | getJobs
  | getJob (name : String)
  | getJobConfig (name : String)
  | getBuild (job : Job) (number : Int)
  | createJob (item : MavenJobItem) (jobName : String)
  | addJobToView (viewName : String) (job : Job)
  | createView (v : ListView)
  | build (job : Job) (params : Option Params)
  | getBuildConsoleOutput (b : Build)
  | getQueue
  | getQueueItem (itemNo : Int)
  | getArtifact (b : Build) (a : Artifact)

/-- Dispatch an operation to its definition. -/
def runOp (j : Jenkins) (world : World) (fuel : Nat) : Op → Res
  | Op.getJobs => j.GetJobs world fuel
  | Op.getJob name => j.GetJob world fuel name
  | Op.getJobConfig name => j.GetJobConfig world name
  | Op.getBuild job number => j.GetBuild world fuel job number
  | Op.createJob item jobName => j.CreateJob world item jobName
  | Op.addJobToView viewName job => j.AddJobToView world fuel viewName job
  | Op.createView v => j.CreateView world v
  | Op.build job params => j.Build world fuel job params
  | Op.getBuildConsoleOutput b => j.GetBuildConsoleOutput world b
  | Op.getQueue => j.GetQueue world fuel
  | Op.getQueueItem itemNo => j.GetQueueItem world fuel itemNo
  | Op.getArtifact b a => j.GetArtifact world b a

/-! ## Concrete fixtures for the evaluation theorems -/

/-- A sample client used by the concrete evaluation theorems. -/
def sampleJenkins : Jenkins :=
  NewJenkins { username := "u", apiToken := "t" } "http://h"

/-- A network oracle that answers every request with the given response. -/
def constWorld (resp : Response) : World :=
  fun _ => Except.ok resp

/-- A successful response with an empty body and a `Location` header of
the shape a build trigger produces. -/
def buildTriggerResponse : Response :=
  { statusCode := 200, location := "https://host/queue/item/42/", body := "" }

/-- A plain 200 response with a small JSON body. -/
def okJsonResponse : Response :=
  { statusCode := 200, location := "", body := "{}" }

/-- A 500 response with a small XML body. -/
def serverErrorResponse : Response :=
  { statusCode := 500, location := "", body := "<oops/>" }

/-- The property every call of the client must satisfy for the
authentication claim: the client is returned unchanged and every recorded
request carries the client's basic-auth pair. -/
def ResOk (j : Jenkins) (r : Res) : Prop :=
  r.client = j ∧ ∀ req ∈ r.reqs, req.basicAuth = some (j.auth.username, j.auth.apiToken)

/-! ## Theorems -/

/-- C1: the claim says that a build-trigger response with an empty body
and a pending-queue-item target is resolved by reading the `Location`
header and issuing a secondary GET for queue item 42.  The code cannot do
this: the redirect branch of `parseResponse` requires the target to be
simultaneously nil (the guard of line 69) and of dynamic type
pointer-to-`Item` (the switch case of line 73), which no Go interface
value satisfies, and `Build` passes the non-nil address of its `Item`
return.  Evaluating `Build` at exactly the failing input of the claim —
empty body, `Location` ending in `/queue/item/42/` — shows that exactly
one request is issued (no secondary queue-item GET) and that the call
returns the result of `json.Unmarshal` applied to the empty body, which
in Go is an unexpected-end-of-input error, not the queue item. -/
theorem c1_build_ignores_location_header :
    (sampleJenkins.Build (constWorld buildTriggerResponse) 9 { name := "ajob" } none).reqs.length
        = 1 ∧
      (sampleJenkins.Build (constWorld buildTriggerResponse) 9 { name := "ajob" } none).outcome
        = Outcome.ret (RetErr.jsonUnmarshal "") :=
  ⟨rfl, rfl⟩

/-- C2: the claim says XML-decoded resources use the path verbatim with no
suffix; but `getXml` builds its URL with `buildUrl`, so the
job-configuration fetch `GetJobConfig "myjob"` requests
`http://h/job/myjob/config.xml/api/json`, not the verbatim path. -/
theorem c2_getJobConfig_url_appends_api_json :
    (sampleJenkins.GetJobConfig (constWorld okJsonResponse) "myjob").reqs.map Request.url
        = ["http://h/job/myjob/config.xml/api/json"] ∧
      ("http://h/job/myjob/config.xml/api/json" : String)
        ≠ "http://h" ++ "/job/myjob/config.xml" :=
  ⟨rfl, by decide⟩

/-- C3: the claim says redirect resolution fails with a reported error on
a short or non-numeric `Location` path, never panicking and never
silently defaulting.  The Location-handling block of `parseResponse`
does the opposite: for the header value `/queue` (a split of length 2)
it indexes segment 5 out of range — a Go runtime panic — and for a
header whose segment 5 is the non-numeric `abc` it discards the
`strconv.Atoi` error and proceeds to fetch queue item 0, reporting no
error about the header at all. -/
theorem c3_location_parsing_panics_or_defaults :
    (sampleJenkins.locationResolve (constWorld okJsonResponse) 9
          { statusCode := 200, location := "/queue", body := "" }).outcome
        = Outcome.panicked "runtime error: index out of range [5] with length 2" ∧
      (sampleJenkins.locationResolve (constWorld okJsonResponse) 9
          { statusCode := 200, location := "https://host/queue/item/abc/", body := "" }).reqs.map
          Request.url
        = ["http://h/queue/item/%!s(int=0)/api/json"] ∧
      (sampleJenkins.locationResolve (constWorld okJsonResponse) 9
          { statusCode := 200, location := "https://host/queue/item/abc/", body := "" }).outcome
        = Outcome.ret (RetErr.jsonUnmarshal "{}") :=
  ⟨rfl, rfl, rfl⟩

/-- C5: the claim says every obtained response body is released exactly
once on every exit path, including status failure.  On `postXml`'s
status-failure path the deferred close lives inside `parseXmlResponse`,
which is never reached: `CreateJob` against a 500 response acquires one
response and closes its body zero times. -/
theorem c5_postXml_leaks_body_on_status_failure :
    (sampleJenkins.CreateJob (constWorld serverErrorResponse)
          { xmlEncoding := Except.ok "<project/>" } "j1").closes = [0] ∧
      (sampleJenkins.CreateJob (constWorld serverErrorResponse)
          { xmlEncoding := Except.ok "<project/>" } "j1").outcome
        = Outcome.ret (RetErr.statusError (postXmlStatusMessage 500)) :=
  ⟨rfl, rfl⟩

/-- C6: the claim says `GetQueueItem 42` requests the queue-item-42
resource at path `/queue/item/42`.  The path is built with a `%s` fmt
verb applied to an int, so the code actually requests
`/queue/item/%!s(int=42)` (plus the JSON suffix), which is not the
claimed URL. -/
theorem c6_getQueueItem_path_malformed :
    (sampleJenkins.GetQueueItem (constWorld okJsonResponse) 9 42).reqs.map Request.url
        = ["http://h/queue/item/%!s(int=42)/api/json"] ∧
      ("http://h/queue/item/%!s(int=42)/api/json" : String)
        ≠ "http://h/queue/item/42/api/json" :=
  ⟨rfl, by decide⟩

/-- The redirect branch of `parseResponse` is unreachable, so the JSON
parse step never issues a request of its own. -/
theorem parseResponse_reqs_nil (j : Jenkins) (world : World) (fuel : Nat)
    (resp : Response) (body : GoInterface) :
    (j.parseResponse world fuel resp body).reqs = [] := by
  match fuel with
  | 0 => rfl
  | fuel + 1 =>
    by_cases hb : body = GoInterface.nilInterface
    · subst hb; simp [Jenkins.parseResponse]
    · simp [Jenkins.parseResponse, hb]

/-- `post` always issues exactly one request, whose URL is the one
`buildUrl` produced. -/
theorem post_reqs (j : Jenkins) (world : World) (fuel : Nat) (path : String)
    (params : Option Params) (body : GoInterface) :
    (j.post world fuel path params body).reqs
      = [j.authedReq
          { method := "POST", url := j.buildUrl path params, payload := "",
            contentType := none, basicAuth := none }] := by
  unfold Jenkins.post
  cases hw : j.sendRequest world
      { method := "POST", url := j.buildUrl path params, payload := "",
        contentType := none, basicAuth := none } <;>
    simp [hw, parseResponse_reqs_nil]

/-- C4 counterexample: the claim as stated fails on the XML GET path —
against a 500 response, `GetJobConfig` does not produce a status-failure
error; it decodes the response body as the target shape. -/
theorem c4_counterexample_getXml_decodes_500 :
    (sampleJenkins.GetJobConfig (constWorld serverErrorResponse) "myjob").outcome
      = Outcome.ret (RetErr.xmlUnmarshal "<oops/>") :=
  rfl

/-- C4 (amended): only the XML POST path checks the status code, and it
treats any code other than exactly 200 — including other 2xx codes — as a
hard failure whose message embeds the decimal status code, without
decoding the body; the XML GET path, like the JSON path, attempts
decoding regardless of the status code. -/
theorem c4_amended_status_asymmetry (j : Jenkins) (path : String) (params : Option Params)
    (xmlBody : String) (target : GoInterface) (resp respG : Response) (fuel : Nat)
    (hs : resp.statusCode ≠ 200) (ht : target ≠ GoInterface.nilInterface) :
    ((j.postXml (constWorld resp) path params xmlBody target).outcome
        = Outcome.ret (RetErr.statusError (postXmlStatusMessage resp.statusCode)) ∧
      ∃ pre suf, postXmlStatusMessage resp.statusCode
        = pre ++ toString resp.statusCode ++ suf) ∧
    (j.getXml (constWorld respG) path params target).outcome
        = Outcome.ret (RetErr.xmlUnmarshal respG.body) ∧
    (j.get (constWorld respG) (fuel + 2) path params target).outcome
        = Outcome.ret (RetErr.jsonUnmarshal respG.body) := by
  refine ⟨⟨?_, "error: HTTP POST returned status code returned: ", "", ?_⟩, ?_, ?_⟩
  · simp [Jenkins.postXml, Jenkins.sendRequest, constWorld, hs]
  · simp [postXmlStatusMessage]
  · simp [Jenkins.getXml, Jenkins.sendRequest, constWorld, Jenkins.parseXmlResponse, ht]
  · simp [Jenkins.get, Jenkins.sendRequest, constWorld, Jenkins.parseResponse, ht]

/-- C4 witness: the amended statement instantiated at a 500 response on
all three paths. -/
theorem c4_amended_status_asymmetry_witness :
    (serverErrorResponse.statusCode ≠ 200 ∧ GoInterface.otherPtr ≠ GoInterface.nilInterface) ∧
    ((sampleJenkins.postXml (constWorld serverErrorResponse) "/createItem" none "<x/>"
          GoInterface.otherPtr).outcome
        = Outcome.ret (RetErr.statusError (postXmlStatusMessage serverErrorResponse.statusCode)) ∧
      ∃ pre suf, postXmlStatusMessage serverErrorResponse.statusCode
        = pre ++ toString serverErrorResponse.statusCode ++ suf) ∧
    (sampleJenkins.getXml (constWorld serverErrorResponse) "/createItem" none
          GoInterface.otherPtr).outcome
        = Outcome.ret (RetErr.xmlUnmarshal serverErrorResponse.body) ∧
    (sampleJenkins.get (constWorld serverErrorResponse) 2 "/createItem" none
          GoInterface.otherPtr).outcome
        = Outcome.ret (RetErr.jsonUnmarshal serverErrorResponse.body) :=
  ⟨⟨by decide, by decide⟩,
    c4_amended_status_asymmetry sampleJenkins "/createItem" none "<x/>" GoInterface.otherPtr
      serverErrorResponse serverErrorResponse 0 (by decide) (by decide)⟩

/-- C7: triggering a build with a nil parameter map issues exactly one
request, at the plain build path; any non-nil parameter map — including
the empty-but-non-nil one — issues exactly one request, at the
buildWithParameters path. -/
theorem c7_build_path_selection (j : Jenkins) (world : World) (fuel : Nat) (job : Job) :
    (j.Build world fuel job none).reqs.map Request.url
        = [j.buildUrl ("/job/" ++ job.name ++ "/build") none] ∧
      ∀ ps : Params, (j.Build world fuel job (some ps)).reqs.map Request.url
        = [j.buildUrl ("/job/" ++ job.name ++ "/buildWithParameters") (some ps)] := by
  constructor
  · simp [Jenkins.Build, post_reqs, Jenkins.authedReq]
  · intro ps
    simp [Jenkins.Build, post_reqs, Jenkins.authedReq]

/-- C8: a nil decode target means the body is discarded without decoding:
on the JSON path `parseResponse` returns a nil error and issues no
request (the redirect case cannot fire for a nil interface value), on the
XML path `parseXmlResponse` likewise returns a nil error, and a whole
call with a nil target (`AddJobToView`) can only report success or a
transport failure — never a decode error. -/
theorem c8_nil_target_discards_body (j : Jenkins) (world : World) (fuel : Nat)
    (resp : Response) (viewName : String) (job : Job) :
    ((j.parseResponse world (fuel + 1) resp GoInterface.nilInterface).outcome
        = Outcome.ret RetErr.noError ∧
      (j.parseResponse world (fuel + 1) resp GoInterface.nilInterface).reqs = []) ∧
    ((j.parseXmlResponse resp GoInterface.nilInterface).outcome = Outcome.ret RetErr.noError ∧
      (j.parseXmlResponse resp GoInterface.nilInterface).reqs = []) ∧
    ((j.AddJobToView world (fuel + 1) viewName job).outcome = Outcome.ret RetErr.noError ∨
      ∃ m, (j.AddJobToView world (fuel + 1) viewName job).outcome
        = Outcome.ret (RetErr.transportError m)) := by
  refine ⟨⟨?_, ?_⟩, ⟨rfl, rfl⟩, ?_⟩
  · simp [Jenkins.parseResponse]
  · simp [Jenkins.parseResponse]
  · unfold Jenkins.AddJobToView Jenkins.post
    cases hw : j.sendRequest world
        { method := "POST",
          url := j.buildUrl ("/view/" ++ viewName ++ "/addJobToView") (some [("name", [job.name])]),
          payload := "", contentType := none, basicAuth := none } with
    | error msg => exact Or.inr ⟨msg, by simp [hw]⟩
    | ok resp2 => exact Or.inl (by simp [hw, Jenkins.parseResponse])

/-- A result with no recorded requests satisfies the authentication
property. -/
theorem resOk_of_no_reqs (j : Jenkins) (r : Res) (h1 : r.client = j) (h2 : r.reqs = []) :
    ResOk j r :=
  ⟨h1, fun req hm => absurd (h2 ▸ hm) (List.not_mem_nil req)⟩

/-- A result whose only recorded request is a `sendRequest`-decorated one
satisfies the authentication property. -/
theorem resOk_single_authed (j : Jenkins) (r : Res) (req0 : Request) (h1 : r.client = j)
    (h2 : r.reqs = [j.authedReq req0]) : ResOk j r := by
  refine ⟨h1, fun req hm => ?_⟩
  rw [h2] at hm
  simp only [List.mem_singleton] at hm
  subst hm
  rfl

/-- Prepending a `sendRequest`-decorated request to a result that
satisfies the authentication property preserves it. -/
theorem resOk_cons_authed (j : Jenkins) (r : Res) (req0 : Request) (p : Res)
    (hp : ResOk j p) (h1 : r.client = p.client) (h2 : r.reqs = [j.authedReq req0] ++ p.reqs) :
    ResOk j r := by
  refine ⟨h1.trans hp.1, fun req hm => ?_⟩
  rw [h2] at hm
  rcases List.mem_append.mp hm with h | h
  · simp only [List.mem_singleton] at h
    subst h
    rfl
  · exact hp.2 req h

/-- The out-of-fuel result satisfies the authentication property. -/
theorem fuelRes_resOk (j : Jenkins) : ResOk j (fuelRes j) :=
  resOk_of_no_reqs j _ rfl rfl

/-- The four mutually recursive dispatch functions return the client
unchanged and record only requests decorated with the client's basic-auth
pair — in particular this covers the secondary queue-item lookup of the
redirect branch. -/
theorem dispatch_resOk (j : Jenkins) (world : World) : ∀ fuel : Nat,
    (∀ resp body, ResOk j (j.parseResponse world fuel resp body)) ∧
    (∀ resp, ResOk j (j.locationResolve world fuel resp)) ∧
    (∀ itemNo, ResOk j (j.GetQueueItem world fuel itemNo)) ∧
    (∀ path params body, ResOk j (j.get world fuel path params body)) := by
  intro fuel
  induction fuel with
  | zero =>
    exact ⟨fun _ _ => fuelRes_resOk j, fun _ => fuelRes_resOk j,
      fun _ => fuelRes_resOk j, fun _ _ _ => fuelRes_resOk j⟩
  | succ n ih =>
    obtain ⟨ihP, ihL, ihG, ihGet⟩ := ih
    refine ⟨?_, ?_, ?_, ?_⟩
    · intro resp body
      by_cases hb : body = GoInterface.nilInterface
      · subst hb
        exact resOk_of_no_reqs j _ rfl rfl
      · have heq : j.parseResponse world (n + 1) resp body
            = { outcome := Outcome.ret (RetErr.jsonUnmarshal resp.body), reqs := [],
                closes := [1], client := j } := by
          simp [Jenkins.parseResponse, hb]
        exact heq ▸ resOk_of_no_reqs j _ rfl rfl
    · intro resp
      by_cases hl : resp.location = ""
      · have heq : j.locationResolve world (n + 1) resp
            = { outcome := Outcome.ret RetErr.noError, reqs := [], closes := [],
                client := j } := by
          simp [Jenkins.locationResolve, hl]
        exact heq ▸ resOk_of_no_reqs j _ rfl rfl
      · rcases hp : (stringsSplit resp.location '/')[5]? with _ | seg
        · have heq : j.locationResolve world (n + 1) resp
              = { outcome := Outcome.panicked
                    ("runtime error: index out of range [5] with length "
                      ++ toString (stringsSplit resp.location '/').length),
                  reqs := [], closes := [], client := j } := by
            simp [Jenkins.locationResolve, hl, hp]
          exact heq ▸ resOk_of_no_reqs j _ rfl rfl
        · have heq : j.locationResolve world (n + 1) resp
              = j.GetQueueItem world n
                  (match atoi seg with | Except.ok k => k | Except.error _ => 0) := by
            simp [Jenkins.locationResolve, hl, hp]
          exact heq ▸ ihG _
    · intro itemNo
      exact ihGet _ _ _
    · intro path params body
      simp only [Jenkins.get]
      split
      · exact resOk_single_authed j _ _ rfl rfl
      · exact resOk_cons_authed j _ _ _ (ihP _ _) rfl rfl

/-- `parseXmlResponse` issues no request of its own. -/
theorem parseXmlResponse_reqs_nil (j : Jenkins) (resp : Response) (body : GoInterface) :
    (j.parseXmlResponse resp body).reqs = [] := by
  unfold Jenkins.parseXmlResponse
  split <;> rfl

/-- `parseXmlResponse` satisfies the authentication property. -/
theorem parseXmlResponse_resOk (j : Jenkins) (resp : Response) (body : GoInterface) :
    ResOk j (j.parseXmlResponse resp body) := by
  unfold Jenkins.parseXmlResponse
  split <;> exact resOk_of_no_reqs j _ rfl rfl

/-- `getXml` satisfies the authentication property. -/
theorem getXml_resOk (j : Jenkins) (world : World) (path : String) (params : Option Params)
    (body : GoInterface) : ResOk j (j.getXml world path params body) := by
  simp only [Jenkins.getXml]
  split
  · exact resOk_single_authed j _ _ rfl rfl
  · exact resOk_cons_authed j _ _ _ (parseXmlResponse_resOk j _ body) rfl rfl

/-- `post` satisfies the authentication property. -/
theorem post_resOk (j : Jenkins) (world : World) (fuel : Nat) (path : String)
    (params : Option Params) (body : GoInterface) :
    ResOk j (j.post world fuel path params body) := by
  simp only [Jenkins.post]
  split
  · exact resOk_single_authed j _ _ rfl rfl
  · exact resOk_cons_authed j _ _ _ ((dispatch_resOk j world fuel).1 _ body) rfl rfl

/-- `postXml` satisfies the authentication property. -/
theorem postXml_resOk (j : Jenkins) (world : World) (path : String) (params : Option Params)
    (xmlBody : String) (body : GoInterface) :
    ResOk j (j.postXml world path params xmlBody body) := by
  simp only [Jenkins.postXml]
  split
  · exact resOk_single_authed j _ _ rfl rfl
  · split
    · exact resOk_single_authed j _ _ rfl rfl
    · exact resOk_cons_authed j _ _ _ (parseXmlResponse_resOk j _ body) rfl rfl

/-- The raw console fetch satisfies the authentication property. -/
theorem getBuildConsoleOutput_resOk (j : Jenkins) (world : World) (build : GoJenkins.Build) :
    ResOk j (j.GetBuildConsoleOutput world build) := by
  simp only [Jenkins.GetBuildConsoleOutput]
  split
  · exact resOk_single_authed j _ _ rfl rfl
  · exact resOk_single_authed j _ _ rfl rfl

/-- The raw artifact fetch satisfies the authentication property. -/
theorem getArtifact_resOk (j : Jenkins) (world : World) (build : GoJenkins.Build)
    (artifact : Artifact) : ResOk j (j.GetArtifact world build artifact) := by
  simp only [Jenkins.GetArtifact]
  split
  · exact resOk_single_authed j _ _ rfl rfl
  · exact resOk_single_authed j _ _ rfl rfl

/-- C9: every exported operation — including the raw-byte console and
artifact fetches and the queue-item lookup — returns the client
unchanged (no operation mutates the credentials or base address) and
every request it issues carries HTTP basic auth built from the client's
username and API token. -/
theorem c9_requests_authenticated_client_immutable (j : Jenkins) (world : World)
    (fuel : Nat) (op : Op) :
    (runOp j world fuel op).client = j ∧
      (runOp j world fuel op).reqs.all
        (fun req => req.basicAuth == some (j.auth.username, j.auth.apiToken)) = true := by
  have h : ResOk j (runOp j world fuel op) := by
    cases op with
    | getJobs => exact (dispatch_resOk j world fuel).2.2.2 _ _ _
    | getJob name => exact (dispatch_resOk j world fuel).2.2.2 _ _ _
    | getJobConfig name => exact getXml_resOk j world _ _ _
    | getBuild job number => exact (dispatch_resOk j world fuel).2.2.2 _ _ _
    | createJob item jobName => exact postXml_resOk j world _ _ _ _
    | addJobToView viewName job => exact post_resOk j world fuel _ _ _
    | createView v => exact postXml_resOk j world _ _ _ _
    | build job params =>
      cases params with
      | none => exact post_resOk j world fuel _ _ _
      | some ps => exact post_resOk j world fuel _ _ _
    | getBuildConsoleOutput b => exact getBuildConsoleOutput_resOk j world b
    | getQueue => exact (dispatch_resOk j world fuel).2.2.2 _ _ _
    | getQueueItem itemNo => exact (dispatch_resOk j world fuel).2.2.1 _
    | getArtifact b a => exact getArtifact_resOk j world b a
  refine ⟨h.1, ?_⟩
  rw [List.all_eq_true]
  intro req hm
  simpa using h.2 req hm

/-- `postXml` always issues exactly one POST request, and that request
carries the given XML payload. -/
theorem postXml_reqs_payload (j : Jenkins) (world : World) (path : String)
    (params : Option Params) (xmlBody : String) (body : GoInterface) :
    (j.postXml world path params xmlBody body).reqs.map Request.payload = [xmlBody] ∧
      (j.postXml world path params xmlBody body).reqs.map Request.method = ["POST"] := by
  simp only [Jenkins.postXml]
  split
  · exact ⟨rfl, rfl⟩
  · split
    · exact ⟨rfl, rfl⟩
    · constructor <;> simp [parseXmlResponse_reqs_nil, Jenkins.authedReq]

/-- C10: when XML serialization of the document fails, `CreateJob` and
`CreateView` discard the marshal error through the blank identifier: each
call is exactly the corresponding `postXml` call on the nil (empty)
payload — so the marshal error cannot influence the result — and each
still issues its POST, carrying the empty payload. -/
theorem c10_create_discards_marshal_error (j : Jenkins) (world : World)
    (item : MavenJobItem) (v : ListView) (jobName e1 e2 : String)
    (h1 : item.xmlEncoding = Except.error e1) (h2 : v.xmlEncoding = Except.error e2) :
    (j.CreateJob world item jobName
        = j.postXml world "/createItem" (some [("name", [jobName])]) ""
            GoInterface.nilInterface ∧
      (j.CreateJob world item jobName).reqs.map Request.payload = [""] ∧
      (j.CreateJob world item jobName).reqs.map Request.method = ["POST"]) ∧
    (j.CreateView world v
        = j.postXml world "/createView" (some [("name", [v.name])]) ""
            GoInterface.nilInterface ∧
      (j.CreateView world v).reqs.map Request.payload = [""] ∧
      (j.CreateView world v).reqs.map Request.method = ["POST"]) := by
  have eq1 : j.CreateJob world item jobName
      = j.postXml world "/createItem" (some [("name", [jobName])]) ""
          GoInterface.nilInterface := by
    simp [Jenkins.CreateJob, xmlMarshalMaven, h1]
  have eq2 : j.CreateView world v
      = j.postXml world "/createView" (some [("name", [v.name])]) ""
          GoInterface.nilInterface := by
    simp [Jenkins.CreateView, xmlMarshalView, h2]
  refine ⟨⟨eq1, ?_, ?_⟩, ⟨eq2, ?_, ?_⟩⟩
  · rw [eq1]; exact (postXml_reqs_payload j world _ _ _ _).1
  · rw [eq1]; exact (postXml_reqs_payload j world _ _ _ _).2
  · rw [eq2]; exact (postXml_reqs_payload j world _ _ _ _).1
  · rw [eq2]; exact (postXml_reqs_payload j world _ _ _ _).2

/-- C10 witness: the statement instantiated at documents whose
serialization fails with concrete errors. -/
theorem c10_create_discards_marshal_error_witness :
    ((⟨Except.error "boom"⟩ : MavenJobItem).xmlEncoding = Except.error "boom" ∧
      (⟨"v1", Except.error "bam"⟩ : ListView).xmlEncoding = Except.error "bam") ∧
    (sampleJenkins.CreateJob (constWorld okJsonResponse) ⟨Except.error "boom"⟩ "j1"
        = sampleJenkins.postXml (constWorld okJsonResponse) "/createItem"
            (some [("name", ["j1"])]) "" GoInterface.nilInterface ∧
      (sampleJenkins.CreateJob (constWorld okJsonResponse)
          ⟨Except.error "boom"⟩ "j1").reqs.map Request.payload = [""] ∧
      (sampleJenkins.CreateJob (constWorld okJsonResponse)
          ⟨Except.error "boom"⟩ "j1").reqs.map Request.method = ["POST"]) ∧
    (sampleJenkins.CreateView (constWorld okJsonResponse) ⟨"v1", Except.error "bam"⟩
        = sampleJenkins.postXml (constWorld okJsonResponse) "/createView"
            (some [("name", ["v1"])]) "" GoInterface.nilInterface ∧
      (sampleJenkins.CreateView (constWorld okJsonResponse)
          ⟨"v1", Except.error "bam"⟩).reqs.map Request.payload = [""] ∧
      (sampleJenkins.CreateView (constWorld okJsonResponse)
          ⟨"v1", Except.error "bam"⟩).reqs.map Request.method = ["POST"]) :=
  ⟨⟨rfl, rfl⟩,
    c10_create_discards_marshal_error sampleJenkins (constWorld okJsonResponse)
      ⟨Except.error "boom"⟩ ⟨"v1", Except.error "bam"⟩ "j1" "boom" "bam" rfl rfl⟩

end GoJenkins
